import Mathlib

/-!
Shallow embedding of the nova-core runtime (crates/core) and proofs about
its executor, planner and security components.

Conventions of the embedding:
* Rust `serde_json::Value` becomes the inductive `Json` below; the stub
  value `serde_json::json!({})` is `Json.obj []`.
* Rust `Result<T, E>` becomes `Except E T`; `anyhow::Error` messages that
  only matter up to identity are modelled by structured error types
  (`AuthError`) or by `String`.
* Wall-clock measurement (`Instant::now` / `elapsed`) is not pure, so the
  elapsed `duration_ms` is passed to `Executor.execute` as a parameter.
* The outcome of the SQLite insert performed by
  `MemoryStore::store_execution` is likewise passed to `Runtime.execute`
  as a parameter (`storeResult`).
* To settle temporal claims, the embedded functions also return the list
  of observable `Event`s they perform, in order: `Event.authorize` at the
  call to `SecurityManager::authorize`, `Event.dispatch id` where
  `Executor::execute` dispatches a step (the serial `execute_step` call or
  the parallel `tokio::spawn`), and `Event.toolInvoke name` where a tool
  would be invoked.  The source of `execute_step` and of the spawned
  closure is the stub `Ok(serde_json::json!({}))`, which contains no call
  into the tool registry, so no embedding point emits `toolInvoke`.
-/

namespace Nova

/-- JSON values (`serde_json::Value`). -/
inductive Json where
  | null : Json
  | bool (b : Bool) : Json
  | num (n : Int) : Json
  | str (s : String) : Json
  | arr (elems : List Json) : Json
  | obj (fields : List (String × Json)) : Json

/-- `ToolCall` from src/core/src/lib.rs. -/
structure ToolCall where
  tool_name : String
  parameters : Json

/-- `Task` from src/core/src/lib.rs. -/
structure Task where
  id : String
  description : String
  tool_calls : List ToolCall

/-- `ExecutionStep` from src/core/src/planner/mod.rs. -/
structure ExecutionStep where
  id : String
  tool_name : String
  parameters : Json
  dependencies : List String

/-- `ExecutionPlan` from src/core/src/planner/mod.rs. -/
structure ExecutionPlan where
  task_id : String
  steps : List ExecutionStep

/-- `TaskResult` from src/core/src/lib.rs (`duration_ms: u64` becomes `Nat`). -/
structure TaskResult where
  task_id : String
  success : Bool
  outputs : List Json
  duration_ms : Nat

/-- `ToolDefinition` from src/core/src/tools/mod.rs. -/
structure ToolDefinition where
  name : String
  description : String
  parameters_schema : Json
  permissions : List String

/-- `ToolRegistry` from src/core/src/tools/mod.rs (the `HashMap` is a
name-keyed association list). -/
structure ToolRegistry where
  tools : List (String × ToolDefinition)

/-- `SandboxMode` from src/core/src/security/mod.rs. -/
inductive SandboxMode where
  | none : SandboxMode
  | process : SandboxMode
  | container : SandboxMode
  | vm : SandboxMode

/-- `SecurityConfig` from src/core/src/security/mod.rs. -/
structure SecurityConfig where
  sandbox_mode : SandboxMode
  allowed_tools : List String
  denied_tools : List String

/-- `ExecutorConfig` from src/core/src/executor/mod.rs. -/
structure ExecutorConfig where
  max_parallel : Nat
  default_timeout_ms : Nat

/-- `impl Default for ExecutorConfig`. -/
def ExecutorConfig.default : ExecutorConfig :=
  { max_parallel := 10, default_timeout_ms := 30000 }

/-- Observable events of one `Runtime::execute` run (see the header
comment): the authorization call, a step dispatch, a tool invocation. -/
inductive Event where
  | authorize : Event
  | dispatch (step_id : String) : Event
  | toolInvoke (tool : String) : Event

/-- The two distinct `anyhow::bail!` messages of
`SecurityManager::authorize`, as a structured error type. -/
inductive AuthError where
  | notInAllowlist (tool : String) : AuthError
  | denied (tool : String) : AuthError

/-- The `for step in &plan.steps` loop body of `SecurityManager::authorize`
(src/core/src/security/mod.rs): first failing check wins, checks run in
step order; the allowlist check is guarded by `!allowed_tools.is_empty()`. -/
def SecurityManager.authorizeSteps (config : SecurityConfig) :
    List ExecutionStep → Except AuthError Unit
  | [] => Except.ok ()
  | step :: rest =>
    if config.allowed_tools ≠ [] ∧ step.tool_name ∉ config.allowed_tools then
      Except.error (AuthError.notInAllowlist step.tool_name)
    else if step.tool_name ∈ config.denied_tools then
      Except.error (AuthError.denied step.tool_name)
    else SecurityManager.authorizeSteps config rest

/-- `SecurityManager::authorize` (src/core/src/security/mod.rs). -/
def SecurityManager.authorize (config : SecurityConfig) (plan : ExecutionPlan) :
    Except AuthError Unit :=
  SecurityManager.authorizeSteps config plan.steps

/-- The `task.tool_calls.iter().enumerate().map(...)` of `Planner::plan`
(src/core/src/planner/mod.rs), with the running index made explicit:
step `i` gets id `"step-" ++ Nat.repr i` (Rust `format!("step-{}", i)`),
the call's tool name and parameters, and no dependencies. -/
def Planner.planSteps (i : Nat) : List ToolCall → List ExecutionStep
  | [] => []
  | call :: rest =>
    { id := "step-" ++ Nat.repr i,
      tool_name := call.tool_name,
      parameters := call.parameters,
      dependencies := [] } :: Planner.planSteps (i + 1) rest

/-- `Planner::plan` (src/core/src/planner/mod.rs): infallible, returns the
enumerated steps under the task's id. -/
def Planner.plan (task : Task) : Except String ExecutionPlan :=
  Except.ok { task_id := task.id, steps := Planner.planSteps 0 task.tool_calls }

/-- `DependencyGraph` (src/core/src/executor/mod.rs): the source struct has
no fields (`// TODO: Implement graph structure`). -/
structure DependencyGraph where

/-- `DependencyGraph::new`. -/
def DependencyGraph.new : DependencyGraph := {}

/-- `DependencyGraph::execution_batches` (src/core/src/executor/mod.rs):
the source body is `vec![]` (`// TODO: Return batches of independent
steps`), so every graph yields zero batches. -/
def DependencyGraph.execution_batches (_g : DependencyGraph) :
    List (List ExecutionStep) := []

/-- `Executor::build_dependency_graph` (src/core/src/executor/mod.rs): the
source body ignores the plan and returns `DependencyGraph::new()`
(`// TODO: Implement dependency analysis`); no error type exists. -/
def Executor.build_dependency_graph (_plan : ExecutionPlan) : DependencyGraph :=
  DependencyGraph.new

/-- `Executor::execute_step` (src/core/src/executor/mod.rs): the source
body is the stub `Ok(serde_json::json!({}))` (`// TODO: Implement actual
step execution`); it never consults the registry, so no `toolInvoke`
event is emitted. -/
def Executor.execute_step (_step : ExecutionStep) (_tools : ToolRegistry) :
    Except String Json × List Event :=
  (Except.ok (Json.obj []), [])

/-- One iteration of the `for batch in graph.execution_batches()` loop of
`Executor::execute`: a singleton batch runs `execute_step` inline (its
error would propagate out of `execute` via `?`); any other batch spawns
one task per step, and each spawned closure returns
`Ok(serde_json::json!({}))` without touching the registry; `handle.await`
collects outputs in spawn (= batch) order. -/
def Executor.runBatch (tools : ToolRegistry) (batch : List ExecutionStep) :
    Except String (List Json) × List Event :=
  match batch with
  | [step] =>
    match Executor.execute_step step tools with
    | (Except.error e, ev) => (Except.error e, Event.dispatch step.id :: ev)
    | (Except.ok out, ev) => (Except.ok [out], Event.dispatch step.id :: ev)
  | _ =>
    (Except.ok (batch.map fun _step => Json.obj []),
     batch.map fun step => Event.dispatch step.id)

/-- The whole batch loop of `Executor::execute`: outputs of successive
batches are pushed onto the same `outputs` vector; a failing batch aborts
the loop with `Err`. -/
def Executor.runBatches (tools : ToolRegistry) :
    List (List ExecutionStep) → Except String (List Json) × List Event
  | [] => (Except.ok [], [])
  | batch :: rest =>
    match Executor.runBatch tools batch with
    | (Except.error e, ev) => (Except.error e, ev)
    | (Except.ok outs, ev) =>
      match Executor.runBatches tools rest with
      | (Except.error e, ev2) => (Except.error e, ev ++ ev2)
      | (Except.ok more, ev2) => (Except.ok (outs ++ more), ev ++ ev2)

/-- `Executor::execute` (src/core/src/executor/mod.rs): builds the (stub)
dependency graph, runs its batches, and wraps the collected outputs in a
`TaskResult` with `success: true` unconditionally.  `duration_ms` is the
measured elapsed time, passed in (see header). -/
def Executor.execute (plan : ExecutionPlan) (tools : ToolRegistry)
    (duration_ms : Nat) : Except String TaskResult × List Event :=
  let graph := Executor.build_dependency_graph plan
  match Executor.runBatches tools graph.execution_batches with
  | (Except.error e, ev) => (Except.error e, ev)
  | (Except.ok outputs, ev) =>
    (Except.ok
      { task_id := plan.task_id, success := true,
        outputs := outputs, duration_ms := duration_ms }, ev)

/-- Top-level runtime errors: `Runtime::execute` propagates (`?`) the
planner, authorization, executor and memory-store failures as one
`anyhow::Error`; the embedding keeps them apart by origin. -/
inductive RuntimeError where
  | planner (msg : String) : RuntimeError
  | auth (e : AuthError) : RuntimeError
  | executor (msg : String) : RuntimeError
  | memory (msg : String) : RuntimeError

/-- `Runtime::execute` (src/core/src/lib.rs): plan, authorize, execute,
store, in that order, each short-circuiting on error via `?`.
`storeResult` is the outcome of the `MemoryStore::store_execution` insert
(see header); `Event.authorize` is emitted at the `authorize` call. -/
def Runtime.execute (security : SecurityConfig) (tools : ToolRegistry)
    (task : Task) (duration_ms : Nat) (storeResult : Except String Unit) :
    Except RuntimeError TaskResult × List Event :=
  match Planner.plan task with
  | Except.error e => (Except.error (RuntimeError.planner e), [])
  | Except.ok plan =>
    match SecurityManager.authorize security plan with
    | Except.error e => (Except.error (RuntimeError.auth e), [Event.authorize])
    | Except.ok _ =>
      match Executor.execute plan tools duration_ms with
      | (Except.error e, ev) =>
        (Except.error (RuntimeError.executor e), Event.authorize :: ev)
      | (Except.ok result, ev) =>
        match storeResult with
        | Except.error m =>
          (Except.error (RuntimeError.memory m), Event.authorize :: ev)
        | Except.ok _ => (Except.ok result, Event.authorize :: ev)

/-!
Injectivity of the decimal rendering `Nat.repr` used by the planner's
`format!("step-{}", i)`: needed to show the planner's step ids are
pairwise distinct.  We relate the fuel-based `Nat.toDigitsCore` to a
recursion-on-value specification `decDigits` and prove the latter
injective.
-/

/-- Decimal digit characters of `n`, most significant first. -/
def decDigits (n : Nat) : List Char :=
  if _h : n < 10 then [Nat.digitChar n]
  else decDigits (n / 10) ++ [Nat.digitChar (n % 10)]
termination_by n
decreasing_by exact Nat.div_lt_self (by omega) (by omega)

theorem decDigits_lt (n : Nat) (h : n < 10) :
    decDigits n = [Nat.digitChar n] := by
  rw [decDigits, dif_pos h]

theorem decDigits_ge (n : Nat) (h : ¬ n < 10) :
    decDigits n = decDigits (n / 10) ++ [Nat.digitChar (n % 10)] := by
  rw [decDigits, dif_neg h]

theorem decDigits_ne_nil (n : Nat) : decDigits n ≠ [] := by
  by_cases h : n < 10
  · rw [decDigits_lt n h]; simp
  · rw [decDigits_ge n h]; simp

theorem toDigitsCore_eq_decDigits (n : Nat) :
    ∀ fuel acc, n < fuel →
      Nat.toDigitsCore 10 fuel n acc = decDigits n ++ acc := by
  induction n using Nat.strong_induction_on with
  | _ n ih =>
    intro fuel acc hlt
    match fuel, hlt with
    | fuel + 1, _ =>
      rw [Nat.toDigitsCore]
      by_cases hdiv : n / 10 = 0
      · have hn : n < 10 := by omega
        rw [if_pos hdiv, decDigits_lt n hn, Nat.mod_eq_of_lt hn]
        rfl
      · have hge : ¬ n < 10 := by
          intro hc
          exact hdiv (Nat.div_eq_of_lt hc)
        have hlt2 : n / 10 < n := Nat.div_lt_self (by omega) (by omega)
        rw [if_neg hdiv, ih (n / 10) hlt2 fuel _ (by omega),
          decDigits_ge n hge, List.append_assoc]
        rfl

theorem toDigits_eq_decDigits (n : Nat) : Nat.toDigits 10 n = decDigits n := by
  rw [Nat.toDigits, toDigitsCore_eq_decDigits n (n + 1) [] (by omega),
    List.append_nil]

theorem repr_eq_decDigits (n : Nat) : Nat.repr n = (decDigits n).asString := by
  rw [Nat.repr, toDigits_eq_decDigits]

theorem digitChar_toNat (d : Nat) (h : d < 10) :
    (Nat.digitChar d).toNat = 48 + d := by
  interval_cases d <;> rfl

theorem digitChar_inj (a b : Nat) (ha : a < 10) (hb : b < 10)
    (h : Nat.digitChar a = Nat.digitChar b) : a = b := by
  have := congrArg Char.toNat h
  rw [digitChar_toNat a ha, digitChar_toNat b hb] at this
  omega

theorem decDigits_inj (m : Nat) :
    ∀ n, decDigits m = decDigits n → m = n := by
  induction m using Nat.strong_induction_on with
  | _ m ih =>
    intro n h
    by_cases hm : m < 10 <;> by_cases hn : n < 10
    · rw [decDigits_lt m hm, decDigits_lt n hn] at h
      exact digitChar_inj m n hm hn (by injection h)
    · rw [decDigits_lt m hm, decDigits_ge n hn] at h
      have hlen := congrArg List.length h
      have hne := decDigits_ne_nil (n / 10)
      simp [List.length_append] at hlen
      cases hx : decDigits (n / 10) with
      | nil => exact absurd hx hne
      | cons c cs => rw [hx] at hlen; simp at hlen
    · rw [decDigits_ge m hm, decDigits_lt n hn] at h
      have hlen := congrArg List.length h
      have hne := decDigits_ne_nil (m / 10)
      simp [List.length_append] at hlen
      cases hx : decDigits (m / 10) with
      | nil => exact absurd hx hne
      | cons c cs => rw [hx] at hlen; simp at hlen
    · rw [decDigits_ge m hm, decDigits_ge n hn] at h
      have hrev := congrArg List.reverse h
      simp only [List.reverse_append, List.reverse_cons, List.reverse_nil,
        List.nil_append, List.singleton_append, List.cons.injEq,
        List.reverse_inj] at hrev
      obtain ⟨hlast, hinit⟩ := hrev
      have hmod : m % 10 = n % 10 :=
        digitChar_inj _ _ (Nat.mod_lt m (by omega)) (Nat.mod_lt n (by omega))
          hlast
      have hdivlt : m / 10 < m := Nat.div_lt_self (by omega) (by omega)
      have hdiv : m / 10 = n / 10 := ih (m / 10) hdivlt (n / 10) hinit
      have h1 := Nat.div_add_mod m 10
      have h2 := Nat.div_add_mod n 10
      omega

theorem nat_repr_data_inj (m n : Nat)
    (h : (Nat.repr m).data = (Nat.repr n).data) : m = n := by
  rw [repr_eq_decDigits, repr_eq_decDigits] at h
  simp only [List.asString] at h
  exact decDigits_inj m n h

theorem nat_repr_inj (m n : Nat) (h : Nat.repr m = Nat.repr n) : m = n :=
  nat_repr_data_inj m n (congrArg String.data h)

/-- The planner's step-id renderer `format!("step-{}", i)` is injective. -/
theorem stepId_inj :
    Function.Injective (fun i : Nat => "step-" ++ Nat.repr i) := by
  intro a b h
  have hdata := congrArg String.data h
  simp only [String.data_append] at hdata
  exact nat_repr_data_inj a b (List.append_cancel_left hdata)

/-! Structure of the plans produced by `Planner.planSteps`. -/

theorem planSteps_length (i : Nat) (calls : List ToolCall) :
    (Planner.planSteps i calls).length = calls.length := by
  induction calls generalizing i with
  | nil => rfl
  | cons c rest ih => simp [Planner.planSteps, ih]

theorem planSteps_map_tool_name (i : Nat) (calls : List ToolCall) :
    (Planner.planSteps i calls).map ExecutionStep.tool_name =
      calls.map ToolCall.tool_name := by
  induction calls generalizing i with
  | nil => rfl
  | cons c rest ih => simp [Planner.planSteps, ih]

theorem planSteps_map_parameters (i : Nat) (calls : List ToolCall) :
    (Planner.planSteps i calls).map ExecutionStep.parameters =
      calls.map ToolCall.parameters := by
  induction calls generalizing i with
  | nil => rfl
  | cons c rest ih => simp [Planner.planSteps, ih]

theorem planSteps_dependencies (i : Nat) (calls : List ToolCall) :
    ∀ step ∈ Planner.planSteps i calls, step.dependencies = [] := by
  induction calls generalizing i with
  | nil => intro step hstep; cases hstep
  | cons c rest ih =>
    intro step hstep
    rw [Planner.planSteps, List.mem_cons] at hstep
    rcases hstep with rfl | h
    · rfl
    · exact ih (i + 1) step h

theorem planSteps_map_id (i : Nat) (calls : List ToolCall) :
    (Planner.planSteps i calls).map ExecutionStep.id =
      (List.range' i calls.length).map (fun j => "step-" ++ Nat.repr j) := by
  induction calls generalizing i with
  | nil => rfl
  | cons c rest ih => simp [Planner.planSteps, List.range'_succ, ih]

/-- C10: `Planner::plan` always succeeds and produces a plan whose
`task_id` equals the task's id and whose steps correspond one-to-one, in
order, to the task's tool_calls — same tool name and parameters, id
`"step-{i}"` for index `i` (hence pairwise distinct ids), and an empty
dependency set, so every emitted plan is trivially acyclic. -/
theorem claim10_planner_spec (task : Task) :
    ∃ plan, Planner.plan task = Except.ok plan ∧
      plan.task_id = task.id ∧
      plan.steps.length = task.tool_calls.length ∧
      plan.steps.map ExecutionStep.tool_name =
        task.tool_calls.map ToolCall.tool_name ∧
      plan.steps.map ExecutionStep.parameters =
        task.tool_calls.map ToolCall.parameters ∧
      plan.steps.map ExecutionStep.id =
        (List.range task.tool_calls.length).map
          (fun i => "step-" ++ Nat.repr i) ∧
      (∀ step ∈ plan.steps, step.dependencies = []) ∧
      (plan.steps.map ExecutionStep.id).Nodup := by
  refine ⟨_, rfl, rfl, planSteps_length 0 _, planSteps_map_tool_name 0 _,
    planSteps_map_parameters 0 _, ?_, planSteps_dependencies 0 _, ?_⟩
  · rw [planSteps_map_id, List.range_eq_range']
  · rw [planSteps_map_id]
    exact (List.nodup_range' 0 _).map stepId_inj

/-- C9: `SecurityManager::authorize` returns an error iff some step's
tool name is absent from a non-empty allowlist or present in the
denylist; with an empty allowlist the allowlist check is skipped and only
the denylist can reject. -/
theorem claim9_authorize_error_iff (config : SecurityConfig)
    (plan : ExecutionPlan) :
    ((∃ e, SecurityManager.authorize config plan = Except.error e) ↔
      ∃ step ∈ plan.steps,
        (config.allowed_tools ≠ [] ∧
          step.tool_name ∉ config.allowed_tools) ∨
          step.tool_name ∈ config.denied_tools) ∧
    (config.allowed_tools = [] →
      ((∃ e, SecurityManager.authorize config plan = Except.error e) ↔
        ∃ step ∈ plan.steps, step.tool_name ∈ config.denied_tools)) := by
  have main : ∀ steps : List ExecutionStep,
      (∃ e, SecurityManager.authorizeSteps config steps = Except.error e) ↔
        ∃ step ∈ steps,
          (config.allowed_tools ≠ [] ∧
            step.tool_name ∉ config.allowed_tools) ∨
            step.tool_name ∈ config.denied_tools := by
    intro steps
    induction steps with
    | nil =>
      simp [SecurityManager.authorizeSteps]
    | cons step rest ih =>
      rw [SecurityManager.authorizeSteps]
      by_cases h1 : config.allowed_tools ≠ [] ∧
          step.tool_name ∉ config.allowed_tools
      · rw [if_pos h1]
        simp only [List.mem_cons]
        constructor
        · intro _
          exact ⟨step, Or.inl rfl, Or.inl h1⟩
        · intro _
          exact ⟨AuthError.notInAllowlist step.tool_name, rfl⟩
      · rw [if_neg h1]
        by_cases h2 : step.tool_name ∈ config.denied_tools
        · rw [if_pos h2]
          simp only [List.mem_cons]
          constructor
          · intro _
            exact ⟨step, Or.inl rfl, Or.inr h2⟩
          · intro _
            exact ⟨AuthError.denied step.tool_name, rfl⟩
        · rw [if_neg h2]
          rw [ih]
          simp only [List.mem_cons]
          constructor
          · rintro ⟨s, hs, hbad⟩
            exact ⟨s, Or.inr hs, hbad⟩
          · rintro ⟨s, rfl | hs, hbad⟩
            · exact absurd hbad (by tauto)
            · exact ⟨s, hs, hbad⟩
  refine ⟨main plan.steps, fun hempty => ?_⟩
  rw [SecurityManager.authorize] at *
  rw [main plan.steps]
  constructor
  · rintro ⟨s, hs, hbad⟩
    rcases hbad with ⟨hne, _⟩ | hden
    · exact absurd hempty hne
    · exact ⟨s, hs, hden⟩
  · rintro ⟨s, hs, hden⟩
    exact ⟨s, hs, Or.inr hden⟩

/-- Deny-list-only configuration used to witness C9. -/
def denyOnlyConfig : SecurityConfig :=
  { sandbox_mode := SandboxMode.process,
    allowed_tools := [],
    denied_tools := ["bash"] }

/-- One-step plan invoking the denied tool, used to witness C9. -/
def denyPlan : ExecutionPlan :=
  { task_id := "t-deny",
    steps := [{ id := "step-0", tool_name := "bash",
                parameters := Json.null, dependencies := [] }] }

/-- Witness for C9 at a concrete input: with an empty allowlist, a plan
calling a denied tool is rejected. -/
theorem claim9_witness :
    denyOnlyConfig.allowed_tools = [] ∧
    (∃ e, SecurityManager.authorize denyOnlyConfig denyPlan =
      Except.error e) := by
  refine ⟨rfl, ?_⟩
  exact ((claim9_authorize_error_iff denyOnlyConfig denyPlan).2 rfl).mpr
    ⟨{ id := "step-0", tool_name := "bash",
       parameters := Json.null, dependencies := [] },
     by simp [denyPlan], by simp [denyOnlyConfig]⟩

/-- C7: on every run of `Runtime::execute` the event trace is exactly
`[Event.authorize]` — authorization is invoked exactly once and no step
dispatch or tool invocation occurs before it (or at all, given the stub
executor) — and when the security gate rejects the planned steps, the
returned value is that authorization error, so no tool is ever invoked
for any step of the plan. -/
theorem claim7_authorize_once_before_dispatch (security : SecurityConfig)
    (tools : ToolRegistry) (task : Task) (dur : Nat)
    (store : Except String Unit) :
    (Runtime.execute security tools task dur store).2 = [Event.authorize] ∧
    (∀ t, Event.toolInvoke t ∉
      (Runtime.execute security tools task dur store).2) ∧
    ∀ e, SecurityManager.authorize security
        { task_id := task.id,
          steps := Planner.planSteps 0 task.tool_calls } =
        Except.error e →
      (Runtime.execute security tools task dur store).1 =
        Except.error (RuntimeError.auth e) := by
  have htrace :
      (Runtime.execute security tools task dur store).2 =
        [Event.authorize] := by
    simp only [Runtime.execute, Planner.plan]
    cases SecurityManager.authorize security
        { task_id := task.id,
          steps := Planner.planSteps 0 task.tool_calls } with
    | error e => rfl
    | ok u => cases store <;> rfl
  refine ⟨htrace, ?_, ?_⟩
  · intro t
    rw [htrace]
    simp
  · intro e h
    simp only [Runtime.execute, Planner.plan, h]

/-- C8: a plan with zero steps yields zero batches and executes to
`TaskResult` with `success = true`, empty `outputs`, and a nonnegative
`duration_ms` (a `Nat`, embedding `u64`). -/
theorem claim8_empty_plan_trivial_success (tid : String)
    (tools : ToolRegistry) (dur : Nat) :
    (Executor.build_dependency_graph
        { task_id := tid, steps := [] }).execution_batches = [] ∧
    Executor.execute { task_id := tid, steps := [] } tools dur =
      (Except.ok
        { task_id := tid, success := true, outputs := [],
          duration_ms := dur }, []) ∧
    0 ≤ dur :=
  ⟨rfl, rfl, Nat.zero_le dur⟩

/-- `ToolRegistry::new` with `register_builtin_tools`
(src/core/src/tools/mod.rs): the built-in `bash` and `read` tools. -/
def ToolRegistry.new : ToolRegistry :=
  { tools :=
      [("bash",
        { name := "bash",
          description := "Execute shell commands",
          parameters_schema := Json.obj
            [("type", Json.str "object"),
             ("properties", Json.obj
               [("command", Json.obj
                 [("type", Json.str "string"),
                  ("description", Json.str "Shell command to execute")])]),
             ("required", Json.arr [Json.str "command"])],
          permissions := ["process"] }),
       ("read",
        { name := "read",
          description := "Read file contents",
          parameters_schema := Json.obj
            [("type", Json.str "object"),
             ("properties", Json.obj
               [("path", Json.obj
                 [("type", Json.str "string"),
                  ("description", Json.str "File path to read")])]),
             ("required", Json.arr [Json.str "path"])],
          permissions := ["filesystem:read"] }) ] }

/-- A task whose single tool call is denied by `denyOnlyConfig`; used to
witness C7. -/
def denyTask : Task :=
  { id := "task-deny",
    description := "call a denied tool",
    tool_calls := [{ tool_name := "bash", parameters := Json.null }] }

/-- Witness for C7 at a concrete input: the planned `denyTask` is
rejected by `denyOnlyConfig`, and `Runtime.execute` returns exactly that
authorization error. -/
theorem claim7_witness :
    SecurityManager.authorize denyOnlyConfig
        { task_id := denyTask.id,
          steps := Planner.planSteps 0 denyTask.tool_calls } =
      Except.error (AuthError.denied "bash") ∧
    (Runtime.execute denyOnlyConfig ToolRegistry.new denyTask 3
        (Except.ok ())).1 =
      Except.error (RuntimeError.auth (AuthError.denied "bash")) :=
  ⟨rfl,
   (claim7_authorize_once_before_dispatch denyOnlyConfig ToolRegistry.new
      denyTask 3 (Except.ok ())).2.2 (AuthError.denied "bash") rfl⟩

/-! Concrete plans exercising the executor's stubbed behavior. -/

/-- A valid single-step plan (the plan `Planner::plan` makes from the
`examples/simple.rs` task). -/
def readPlan : ExecutionPlan :=
  { task_id := "task-1",
    steps := [{ id := "step-0", tool_name := "read",
                parameters := Json.obj [("path", Json.str "/tmp/test.txt")],
                dependencies := [] }] }

/-- A plan whose step declares a dependency id that resolves to no step. -/
def unknownDepPlan : ExecutionPlan :=
  { task_id := "t-unknown",
    steps := [{ id := "a", tool_name := "read",
                parameters := Json.null, dependencies := ["missing"] }] }

/-- A plan whose dependency relation is a two-cycle `a -> b -> a`. -/
def cyclicPlan : ExecutionPlan :=
  { task_id := "t-cycle",
    steps := [{ id := "a", tool_name := "read",
                parameters := Json.null, dependencies := ["b"] },
              { id := "b", tool_name := "read",
                parameters := Json.null, dependencies := ["a"] }] }

/-- Two independent steps: `fail` names a tool absent from the registry
(so, per the spec, it would fail), `read` would succeed. -/
def failAndReadPlan : ExecutionPlan :=
  { task_id := "t-isolate",
    steps := [{ id := "a", tool_name := "fail",
                parameters := Json.null, dependencies := [] },
              { id := "b", tool_name := "read",
                parameters := Json.null, dependencies := [] }] }

/-- A failing step `a` and a step `c` depending on it. -/
def depOnFailPlan : ExecutionPlan :=
  { task_id := "t-skip",
    steps := [{ id := "a", tool_name := "fail",
                parameters := Json.null, dependencies := [] },
              { id := "c", tool_name := "read",
                parameters := Json.null, dependencies := ["a"] }] }

/-- C1 fails on the code: on the valid accepted one-step plan `readPlan`
the executor returns `outputs = []` — the step's slot is omitted — because
the stubbed `execution_batches` yields no batch, so no step ever runs. -/
theorem claim1_outputs_omit_steps :
    readPlan.steps.length = 1 ∧
    (Executor.execute readPlan ToolRegistry.new 5).1 =
      Except.ok
        { task_id := "task-1", success := true,
          outputs := [], duration_ms := 5 } :=
  ⟨rfl, rfl⟩

/-- C2 fails on the code: `Executor::execute` returns `success := true`
and `outputs := []` unconditionally, for every plan — no per-step outcome
is ever produced, no error can ever be recorded, and a step that did not
error (none can) never contributes a value to `outputs`. -/
theorem claim2_success_unconditionally_true (plan : ExecutionPlan)
    (tools : ToolRegistry) (dur : Nat) :
    (Executor.execute plan tools dur).1 =
      Except.ok
        { task_id := plan.task_id, success := true,
          outputs := [], duration_ms := dur } :=
  rfl

/-- C3 fails on the code: `build_dependency_graph` is the stub
`DependencyGraph::new()`; no `GraphError` type exists, and execution of a
plan with an unknown dependency id, or with a dependency cycle, proceeds
and returns a successful `TaskResult` instead of an error. -/
theorem claim3_no_graph_validation :
    Executor.build_dependency_graph unknownDepPlan = DependencyGraph.new ∧
    Executor.build_dependency_graph cyclicPlan = DependencyGraph.new ∧
    (Executor.execute unknownDepPlan ToolRegistry.new 0).1 =
      Except.ok
        { task_id := "t-unknown", success := true,
          outputs := [], duration_ms := 0 } ∧
    (Executor.execute cyclicPlan ToolRegistry.new 0).1 =
      Except.ok
        { task_id := "t-cycle", success := true,
          outputs := [], duration_ms := 0 } :=
  ⟨rfl, rfl, rfl, rfl⟩

/-- C4 fails on the code: for the valid one-step plan `readPlan` the
batches are `[]`, so its step appears in no batch at all — the batches do
not partition the step set. -/
theorem claim4_batches_omit_steps :
    (Executor.build_dependency_graph readPlan).execution_batches = [] ∧
    readPlan.steps ≠ [] :=
  ⟨rfl, by simp [readPlan]⟩

/-- C5 fails on the code: for the plan `[a (would fail), b (would
succeed)]` in one batch, the executor dispatches neither step (empty
event trace), returns no value for `b` in `outputs`, and reports
`success = true` instead of `false`. -/
theorem claim5_no_failure_isolation :
    Executor.execute failAndReadPlan ToolRegistry.new 2 =
      (Except.ok
        { task_id := "t-isolate", success := true,
          outputs := [], duration_ms := 2 }, []) :=
  rfl

/-- C6 fails on the code: for the plan `[a (would fail), c depends on a]`
step `c` is indeed never dispatched (empty event trace), but no outcome
is recorded for it either — no `SkippedDueToDependencyFailure` (or any
`StepOutcome`) exists in the code, and the result is a bare success with
empty `outputs`. -/
theorem claim6_no_skip_outcome_recorded :
    Executor.execute depOnFailPlan ToolRegistry.new 4 =
      (Except.ok
        { task_id := "t-skip", success := true,
          outputs := [], duration_ms := 4 }, []) :=
  rfl

end Nova
